import Mathlib

/-
Shallow embedding of the announcement scheduling engine of
VoiceAnnouncementApplication (src/main.py).

Timestamps are modelled as natural numbers counting minutes, so
one day is 1440 and one week is 10080.  Python dicts of string
variables are modelled as association lists, and the pyttsx3 /
Qt side effects (speech output, status-bar messages) are modelled
as a trace of emitted status strings inside the queue state.
-/

namespace VoiceAnnouncement

/-- Recurrence policy: the source stores `None`, `'daily'` or `'weekly'`
(src/main.py line 21); we model the string tag as an inductive and the
whole field as `Option RepeatKind`. -/
inductive RepeatKind where
  | daily
  | weekly
deriving DecidableEq

/-- The engine's `Announcement` class (src/main.py lines 16-31).
`repeat_end` is the bound collected by `AnnouncementEditDialog.get_announcement`
(lines 532, 547); the engine class itself never reads it, which the
definitions below reflect. -/
structure Announcement where
  text_template : String
  play_time : Nat
  «repeat» : Option RepeatKind
  voice_id : Nat
  priority : Int
  «variables» : List (String × String)
  repeat_end : Option Nat
deriving DecidableEq

/-- Reads one replacement-field name: the characters up to the closing
brace of a `{name}` placeholder (part of the model of Python `str.format`,
used by `Announcement.get_text`, src/main.py line 35).  A nested `'{'` or a
missing closing brace is a malformed template. -/
def takeField : List Char → Option (List Char × List Char)
  | [] => none
  | '}' :: rest => some ([], rest)
  | '{' :: _ => none
  | c :: rest => (takeField rest).map (fun p => (c :: p.1, p.2))

/-- Model of Python `str.format(**variables)` restricted to the simple
`{name}` placeholders the application uses, with `\x7b\x7b` / `\x7d\x7d`
escaping.  Returns `none` exactly when CPython would raise (missing key,
single closing brace, unterminated field).  `fuel` only drives structural
recursion; each step consumes at least one character, so
`fuel = length + 1` never runs out. -/
def formatAux (vs : List (String × String)) : Nat → List Char → Option (List Char)
  | 0, [] => some []
  | 0, _ :: _ => none
  | _ + 1, [] => some []
  | fuel + 1, '{' :: '{' :: rest => (formatAux vs fuel rest).map (fun r => '{' :: r)
  | fuel + 1, '}' :: '}' :: rest => (formatAux vs fuel rest).map (fun r => '}' :: r)
  | fuel + 1, '{' :: rest =>
    match takeField rest with
    | none => none
    | some (name, rest') =>
      match vs.lookup (String.mk name) with
      | none => none
      | some v => (formatAux vs fuel rest').map (fun r => v.data ++ r)
  | _ + 1, '}' :: _ => none
  | fuel + 1, c :: rest => (formatAux vs fuel rest).map (fun r => c :: r)

/-- `template.format(**variables)` (src/main.py line 35): `none` models a
raised exception. -/
def strFormat (tpl : String) (vs : List (String × String)) : Option String :=
  (formatAux vs (tpl.data.length + 1) tpl.data).map String.mk

/-- `Announcement.get_text` (src/main.py lines 33-37): substitute the
variables, falling back to the raw template on any exception. -/
def get_text (a : Announcement) : String :=
  match strFormat a.text_template a.«variables» with
  | some s => s
  | none => a.text_template

/-- `Announcement.is_due` (src/main.py lines 39-40): `now >= self.play_time`. -/
def is_due (a : Announcement) (now : Nat) : Bool :=
  decide (a.play_time ≤ now)

/-- `Announcement.reschedule` (src/main.py lines 42-47): advance the play
time by one day or one week in place when repeating; leave it alone
otherwise. -/
def reschedule (a : Announcement) : Announcement :=
  match a.«repeat» with
  | some RepeatKind.daily => { a with play_time := a.play_time + 1440 }
  | some RepeatKind.weekly => { a with play_time := a.play_time + 10080 }
  | none => a

/-- The composite sort key of src/main.py line 65:
`key=lambda a: (-a.priority, a.play_time)`. -/
def key (a : Announcement) : Int × Nat :=
  (-a.priority, a.play_time)

/-- Lexicographic order of the composite keys (Python tuple comparison). -/
def keyLe (k₁ k₂ : Int × Nat) : Prop :=
  k₁.1 < k₂.1 ∨ (k₁.1 = k₂.1 ∧ k₁.2 ≤ k₂.2)

instance (k₁ k₂ : Int × Nat) : Decidable (keyLe k₁ k₂) := by
  unfold keyLe; exact inferInstance

/-- Announcement comparison used for the queue order. -/
def annLe (x y : Announcement) : Prop :=
  keyLe (key x) (key y)

instance (x y : Announcement) : Decidable (annLe x y) := by
  unfold annLe; exact inferInstance

/-- One step of a stable sort: insert `a` after every element whose key
is `≤ key a`.  Together with `sortKey` this models CPython `list.sort`,
which is guaranteed stable. -/
def sortKeyInsert (a : Announcement) : List Announcement → List Announcement
  | [] => [a]
  | b :: t => if keyLe (key b) (key a) then b :: sortKeyInsert a t else a :: b :: t

/-- Model of `self.queue.sort(key=lambda a: (-a.priority, a.play_time))`
(src/main.py line 65): a stable sort by the composite key. -/
def sortKey (l : List Announcement) : List Announcement :=
  l.foldl (fun acc x => sortKeyInsert x acc) []

/-- The pending-list update of `add_announcement` (src/main.py lines 63-65):
append, then stable-sort by `(-priority, play_time)`. -/
def addToQueue (q : List Announcement) (a : Announcement) : List Announcement :=
  sortKey (q ++ [a])

/-- State of the engine `AnnouncementQueue` (src/main.py lines 50-59).
`playing_alive` models `self.playing_thread is not None and
self.playing_thread.is_alive()`; `messages` is the trace of
`status_bar.showMessage` calls. -/
structure QueueState where
  queue : List Announcement
  current_announcement : Option Announcement
  playing_alive : Bool
  interrupted : Bool
  messages : List String
deriving DecidableEq

/-- `AnnouncementQueue.__init__` state (src/main.py lines 51-59). -/
def emptyState : QueueState :=
  ⟨[], none, false, false, []⟩

/-- `AnnouncementQueue._try_play_next` (src/main.py lines 80-89): return if
a playback thread is alive; otherwise pop the head of the queue, mark it
current, clear the interrupted flag and start a playback thread for it. -/
def try_play_next (st : QueueState) : QueueState :=
  if st.playing_alive then st
  else
    match st.queue with
    | [] => st
    | next :: rest =>
      { st with
        queue := rest
        current_announcement := some next
        interrupted := false
        playing_alive := true }

/-- `AnnouncementQueue.add_announcement` (src/main.py lines 61-67): append
and stable-sort the queue under the lock, emit a status message, then try
to start playback. -/
def add_announcement (a : Announcement) (st : QueueState) : QueueState :=
  let st1 := { st with queue := sortKey (st.queue ++ [a]) }
  let st2 := { st1 with messages := st1.messages ++ ["Announcement queued: " ++ get_text a] }
  try_play_next st2

/-- `AnnouncementQueue.interrupt_with_live` (src/main.py lines 69-78): if a
playback thread is alive, set the interrupted flag (the `engine.stop()`
call only signals the external speech sink and touches no queue state);
insert the live announcement at index 0; emit a status message; try to
start playback. -/
def interrupt_with_live (a : Announcement) (st : QueueState) : QueueState :=
  let st1 := if st.playing_alive then { st with interrupted := true } else st
  let st2 := { st1 with queue := a :: st1.queue }
  let st3 := { st2 with messages := st2.messages ++ ["Live announcement started..."] }
  try_play_next st3

/-- `AnnouncementQueue._play_announcement` (src/main.py lines 91-109), run
on the playback thread (so `playing_alive` is true throughout, including
in the `finally` block).  `outcome = none` is a normal playback;
`outcome = some e` models the speech engine raising exception `e`,
which only adds an error message.  The `finally` block then re-enqueues a
repeating announcement after rescheduling it, clears the current
announcement and calls `_try_play_next`. -/
def play_announcement (outcome : Option String) (a : Announcement) (st : QueueState) :
    QueueState :=
  let msgs :=
    match outcome with
    | none => st.messages ++ ["Playing: " ++ get_text a]
    | some e => st.messages ++ ["Playing: " ++ get_text a, "Error playing announcement: " ++ e]
  let st1 : QueueState := { st with messages := msgs }
  let st2 := if a.«repeat».isSome then add_announcement (reschedule a) st1 else st1
  let st3 := { st2 with current_announcement := none }
  try_play_next st3

/-- The playback thread terminating after `_play_announcement` returns:
from then on `playing_thread.is_alive()` is false. -/
def thread_exit (st : QueueState) : QueueState :=
  { st with playing_alive := false }

/-- A queue state in the middle of playing `c` with an empty pending list:
the state reached by `add_announcement c` from the initial state, with the
playback thread still running. -/
def busyState (c : Announcement) : QueueState :=
  ⟨[], some c, true, false, []⟩

/-- The second, module-level `Announcement` class (src/main.py lines
567-574), which shadows the engine's `Announcement` when the program runs. -/
structure DummyAnnouncement where
  text : String
  created_at : Nat
  priority : Int
deriving DecidableEq

/-- `Announcement.is_due` of the second definition (src/main.py lines
573-574): always true. -/
def dummy_is_due (_a : DummyAnnouncement) (_now : Nat) : Bool :=
  true

/-- State of the second, module-level `AnnouncementQueue` class
(src/main.py lines 577-582): just a list and the status-message trace —
no current announcement, no lock, no playback thread. -/
structure DummyQueue where
  queue : List DummyAnnouncement
  messages : List String
deriving DecidableEq

/-- `AnnouncementQueue.interrupt_with_live` of the second definition
(src/main.py lines 584-585): only emits a status message. -/
def dummy_interrupt_with_live (a : DummyAnnouncement) (st : DummyQueue) : DummyQueue :=
  { st with messages := st.messages ++ ["Live: " ++ a.text] }

/-- `AnnouncementQueue.add_announcement` of the second definition
(src/main.py lines 587-589): plain append plus a status message. -/
def dummy_add_announcement (a : DummyAnnouncement) (st : DummyQueue) : DummyQueue :=
  { st with
    queue := st.queue ++ [a]
    messages := st.messages ++ ["Queued: " ++ a.text] }

/-- `list.remove(x)` (CPython): delete the first occurrence of `x`. -/
def removeFirst (x : Announcement) : List Announcement → List Announcement
  | [] => []
  | y :: t => if y = x then t else y :: removeFirst x t

/-- The loop of `VoiceAnnouncementApp.check_schedules` (src/main.py lines
1003-1009) with CPython `for` semantics: the list iterator keeps an index
`i` into the *current* list, so `list.remove` during iteration shifts the
remaining elements one slot left under the iterator.  For each visited
announcement that is due, `add_announcement` is called (recorded in the
`enqueued` trace) and a one-shot announcement is removed from the watch
list.  `fuel` only drives structural recursion: each iteration advances
`i` by one while the list never grows, so `length + 1` steps always reach
the iterator's stop condition `i ≥ length`. -/
def check_schedules_loop (now : Nat) :
    Nat → Nat → List Announcement → List Announcement →
    List Announcement × List Announcement
  | 0, _, watch, enq => (watch, enq)
  | fuel + 1, i, watch, enq =>
    match watch.get? i with
    | none => (watch, enq)
    | some a =>
      if is_due a now then
        let enq' := enq ++ [a]
        let watch' := if a.«repeat» = none then removeFirst a watch else watch
        check_schedules_loop now fuel (i + 1) watch' enq'
      else
        check_schedules_loop now fuel (i + 1) watch enq

/-- `VoiceAnnouncementApp.check_schedules` (src/main.py lines 1003-1009):
returns the watch list after the tick together with the trace of
announcements handed to `add_announcement`. -/
def check_schedules (now : Nat) (watch : List Announcement) :
    List Announcement × List Announcement :=
  check_schedules_loop now (watch.length + 1) 0 watch []

/-- The three pieces of shared state named by the spec's critical-section
requirement. -/
inductive SharedVar where
  | queue
  | current_announcement
  | interrupted
deriving DecidableEq

/-- One read or write of a piece of shared queue state, together with
whether the statement performing it lies inside a `with self.lock` block.
Transcribed statement by statement from src/main.py. -/
structure MemAccess where
  var : SharedVar
  isWrite : Bool
  underLock : Bool
deriving DecidableEq

/-- Shared-state accesses of `add_announcement` (src/main.py lines 61-67):
the append (line 63) and the sort (line 65) both run inside
`with self.lock` (line 62). -/
def add_announcement_accesses : List MemAccess :=
  [⟨SharedVar.queue, true, true⟩,
   ⟨SharedVar.queue, true, true⟩]

/-- Shared-state accesses of `interrupt_with_live` (src/main.py lines
69-78): the interrupted-flag write (line 73) and the front insertion
(line 76) run inside `with self.lock` (line 70). -/
def interrupt_with_live_accesses : List MemAccess :=
  [⟨SharedVar.interrupted, true, true⟩,
   ⟨SharedVar.queue, true, true⟩]

/-- Shared-state accesses of `_try_play_next` (src/main.py lines 80-89):
the emptiness test (line 83), the pop (line 85), the current-announcement
write (line 86) and the interrupted-flag write (line 87) are all performed
without acquiring `self.lock`. -/
def try_play_next_accesses : List MemAccess :=
  [⟨SharedVar.queue, false, false⟩,
   ⟨SharedVar.queue, true, false⟩,
   ⟨SharedVar.current_announcement, true, false⟩,
   ⟨SharedVar.interrupted, true, false⟩]

/-- Shared-state accesses of `_play_announcement` (src/main.py lines
91-109): the `finally` block clears `current_announcement` (line 108)
without acquiring `self.lock`. -/
def play_announcement_accesses : List MemAccess :=
  [⟨SharedVar.current_announcement, true, false⟩]

/-- All shared-state accesses of the engine's four queue methods. -/
def engine_accesses : List MemAccess :=
  add_announcement_accesses ++ interrupt_with_live_accesses ++
    try_play_next_accesses ++ play_announcement_accesses

/-- The filter selecting the announcements with a given composite key;
used to state stability of the queue order. -/
def keyIs (k : Int × Nat) (x : Announcement) : Bool :=
  decide (key x = k)

lemma keyLe_refl (k : Int × Nat) : keyLe k k := by
  unfold keyLe; omega

lemma keyLe_total (k₁ k₂ : Int × Nat) : keyLe k₁ k₂ ∨ keyLe k₂ k₁ := by
  unfold keyLe; omega

lemma keyLe_trans {k₁ k₂ k₃ : Int × Nat} (h₁ : keyLe k₁ k₂) (h₂ : keyLe k₂ k₃) :
    keyLe k₁ k₃ := by
  unfold keyLe at *; omega

lemma sortKeyInsert_perm (a : Announcement) (l : List Announcement) :
    List.Perm (sortKeyInsert a l) (a :: l) := by
  induction l with
  | nil => simp [sortKeyInsert]
  | cons b t ih =>
    by_cases h : keyLe (key b) (key a)
    · simpa [sortKeyInsert, h] using (ih.cons b).trans (List.Perm.swap a b t)
    · simp [sortKeyInsert, h]

lemma mem_sortKeyInsert {x a : Announcement} {l : List Announcement} :
    x ∈ sortKeyInsert a l ↔ x = a ∨ x ∈ l := by
  rw [(sortKeyInsert_perm a l).mem_iff]; simp

lemma sortKeyInsert_sorted (a : Announcement) {l : List Announcement}
    (h : List.Sorted annLe l) : List.Sorted annLe (sortKeyInsert a l) := by
  induction l with
  | nil => simp [sortKeyInsert, List.sorted_singleton]
  | cons b t ih =>
    rcases List.sorted_cons.mp h with ⟨hb, ht⟩
    by_cases hba : keyLe (key b) (key a)
    · rw [sortKeyInsert, if_pos hba]
      refine List.sorted_cons.mpr ⟨?_, ih ht⟩
      intro x hx
      rcases mem_sortKeyInsert.mp hx with rfl | hx
      · exact hba
      · exact hb x hx
    · rw [sortKeyInsert, if_neg hba]
      have hab : annLe a b := (keyLe_total (key a) (key b)).resolve_right hba
      refine List.sorted_cons.mpr ⟨?_, h⟩
      intro x hx
      rcases List.mem_cons.mp hx with rfl | hx
      · exact hab
      · exact keyLe_trans hab (hb x hx)

lemma sortKeyInsert_filter (a : Announcement) {l : List Announcement}
    (hs : List.Sorted annLe l) (k : Int × Nat) :
    (sortKeyInsert a l).filter (keyIs k) = (l ++ [a]).filter (keyIs k) := by
  induction l with
  | nil => simp [sortKeyInsert]
  | cons b t ih =>
    rcases List.sorted_cons.mp hs with ⟨hb, ht⟩
    by_cases hba : keyLe (key b) (key a)
    · rw [sortKeyInsert, if_pos hba, List.cons_append, List.filter_cons,
        List.filter_cons, ih ht]
    · rw [sortKeyInsert, if_neg hba, List.cons_append]
      by_cases hk : key a = k
      · have hnone : (b :: t).filter (keyIs k) = [] := by
          refine List.filter_eq_nil_iff.mpr ?_
          intro x hx hxk
          have hxa : key x = key a := by
            have hxk' : key x = k := by simpa [keyIs] using hxk
            rw [hxk', hk]
          rcases List.mem_cons.mp hx with rfl | hx
          · exact hba (hxa ▸ keyLe_refl (key x))
          · have hbx : keyLe (key b) (key x) := hb x hx
            rw [hxa] at hbx
            exact hba hbx
        have hfa : keyIs k a = true := by simp [keyIs, hk]
        have h1 : (b :: (t ++ [a])).filter (keyIs k) = (b :: t).filter (keyIs k) ++ [a] := by
          rw [show b :: (t ++ [a]) = (b :: t) ++ [a] from rfl, List.filter_append]
          simp [hfa]
        rw [List.filter_cons_of_pos hfa, h1, hnone]
        simp
      · have hfa : keyIs k a = false := by simp [keyIs, hk]
        have h1 : (b :: (t ++ [a])).filter (keyIs k) = (b :: t).filter (keyIs k) := by
          rw [show b :: (t ++ [a]) = (b :: t) ++ [a] from rfl, List.filter_append]
          simp [hfa]
        rw [List.filter_cons_of_neg (by simp [hfa]), h1]

lemma foldl_insert_props (l : List Announcement) :
    ∀ acc : List Announcement, List.Sorted annLe acc →
      List.Sorted annLe (l.foldl (fun acc x => sortKeyInsert x acc) acc) ∧
      List.Perm (l.foldl (fun acc x => sortKeyInsert x acc) acc) (acc ++ l) ∧
      ∀ k, (l.foldl (fun acc x => sortKeyInsert x acc) acc).filter (keyIs k) =
        (acc ++ l).filter (keyIs k) := by
  induction l with
  | nil =>
    intro acc hacc
    exact ⟨hacc, by simp, fun k => by simp⟩
  | cons a t ih =>
    intro acc hacc
    have hins : List.Sorted annLe (sortKeyInsert a acc) := sortKeyInsert_sorted a hacc
    obtain ⟨hsorted, hperm, hfilter⟩ := ih (sortKeyInsert a acc) hins
    refine ⟨hsorted, ?_, ?_⟩
    · refine hperm.trans ?_
      refine (List.Perm.append_right t (sortKeyInsert_perm a acc)).trans ?_
      have h1 : (a :: acc) ++ t = a :: (acc ++ t) := rfl
      rw [h1]
      exact List.perm_middle.symm
    · intro k
      rw [List.foldl_cons, hfilter k, List.filter_append, sortKeyInsert_filter a hacc k,
        List.filter_append, List.filter_append, List.append_assoc]
      congr 1
      rw [← List.filter_append]
      simp

lemma sortKey_sorted (l : List Announcement) : List.Sorted annLe (sortKey l) :=
  (foldl_insert_props l [] (by simp)).1

lemma sortKey_perm (l : List Announcement) : List.Perm (sortKey l) l := by
  simpa [sortKey] using (foldl_insert_props l [] (by simp)).2.1

lemma sortKey_filter (l : List Announcement) (k : Int × Nat) :
    (sortKey l).filter (keyIs k) = l.filter (keyIs k) := by
  simpa [sortKey] using (foldl_insert_props l [] (by simp)).2.2 k

lemma addToQueue_fold_props (anns : List Announcement) :
    ∀ q S : List Announcement, List.Sorted annLe q → List.Perm q S →
      (∀ k, q.filter (keyIs k) = S.filter (keyIs k)) →
      List.Sorted annLe (anns.foldl addToQueue q) ∧
      List.Perm (anns.foldl addToQueue q) (S ++ anns) ∧
      ∀ k, (anns.foldl addToQueue q).filter (keyIs k) =
        (S ++ anns).filter (keyIs k) := by
  induction anns with
  | nil =>
    intro q S hs hp hf
    simp only [List.foldl_nil, List.append_nil]
    exact ⟨hs, hp, hf⟩
  | cons a t ih =>
    intro q S hs hp hf
    have hs' : List.Sorted annLe (addToQueue q a) := sortKey_sorted (q ++ [a])
    have hp' : List.Perm (addToQueue q a) (S ++ [a]) :=
      (sortKey_perm (q ++ [a])).trans (List.Perm.append_right [a] hp)
    have hf' : ∀ k, (addToQueue q a).filter (keyIs k) = (S ++ [a]).filter (keyIs k) := by
      intro k
      rw [addToQueue, sortKey_filter (q ++ [a]) k, List.filter_append, hf k,
        ← List.filter_append]
    have hrec := ih (addToQueue q a) (S ++ [a]) hs' hp' hf'
    have hS : (S ++ [a]) ++ t = S ++ a :: t := by
      rw [List.append_assoc]
      rfl
    rw [hS] at hrec
    exact hrec

/-- Enqueueing while a playback is in progress only updates the pending
list (append + stable sort (src/main.py lines 63-65)); `_try_play_next`
returns at its is-alive check (line 82). -/
lemma add_announcement_queue_of_alive (a : Announcement) (st : QueueState)
    (h : st.playing_alive = true) :
    (add_announcement a st).queue = addToQueue st.queue a ∧
    (add_announcement a st).playing_alive = true ∧
    (add_announcement a st).current_announcement = st.current_announcement := by
  simp [add_announcement, try_play_next, addToQueue, h]

/-- The queue evolution of a sequence of `add_announcement` calls made
while a playback is in progress: the pending list is exactly the fold of
append-and-stable-sort steps, and the playback state is untouched. -/
lemma fold_add_queue_of_alive (anns : List Announcement) :
    ∀ st : QueueState, st.playing_alive = true →
      (anns.foldl (fun s a => add_announcement a s) st).queue =
        anns.foldl addToQueue st.queue ∧
      (anns.foldl (fun s a => add_announcement a s) st).playing_alive = true := by
  induction anns with
  | nil => intro st h; exact ⟨rfl, h⟩
  | cons a t ih =>
    intro st h
    obtain ⟨hq, ha, -⟩ := add_announcement_queue_of_alive a st h
    obtain ⟨hq', ha'⟩ := ih (add_announcement a st) ha
    constructor
    · simp only [List.foldl_cons]
      rw [hq', hq]
    · exact ha'

/-- The behaviour of the completion handler `_play_announcement` never
depends on the `interrupted` flag: the flag is written (src/main.py lines
59, 73, 87) but read nowhere, so two runs that differ only in the flag
produce the same pending list and the same current announcement. -/
lemma play_ignores_interrupted (o : Option String) (a : Announcement)
    (q : List Announcement) (c : Option Announcement) (pa i i' : Bool)
    (m : List String) :
    (play_announcement o a ⟨q, c, pa, i, m⟩).queue =
      (play_announcement o a ⟨q, c, pa, i', m⟩).queue ∧
    (play_announcement o a ⟨q, c, pa, i, m⟩).current_announcement =
      (play_announcement o a ⟨q, c, pa, i', m⟩).current_announcement := by
  cases hrep : a.«repeat» with
  | none =>
    cases pa with
    | true => simp [play_announcement, add_announcement, try_play_next, hrep]
    | false =>
      cases q <;> simp [play_announcement, add_announcement, try_play_next, hrep]
  | some r =>
    cases pa with
    | true => simp [play_announcement, add_announcement, try_play_next, hrep]
    | false =>
      simp only [play_announcement, add_announcement, try_play_next, hrep,
        Option.isSome_some, if_true]
      generalize sortKey (q ++ [reschedule a]) = L
      cases L <;> simp

/- Concrete instances used by the per-claim theorems below.  Priorities
and play times follow the spec's running example (priority 1 at 10:00,
priority 5 at 10:05 and 10:01, minutes since midnight). -/

def annC1A : Announcement := ⟨"first", 600, none, 0, 1, [], none⟩

def annC1B : Announcement := ⟨"second", 605, none, 0, 5, [], none⟩

def annC1C : Announcement := ⟨"third", 601, none, 0, 5, [], none⟩

def annC2 : Announcement := ⟨"live", 0, none, 0, 1, [], none⟩

def annC2cur : Announcement := ⟨"playing now", 0, none, 0, 9, [], none⟩

def annC2idle : Announcement := ⟨"live from idle", 0, none, 0, 1, [], none⟩

def annC3 : Announcement := ⟨"daily report", 100, some RepeatKind.daily, 0, 1, [], some 100⟩

/-- The state actually reached by `add_announcement annC3` on a fresh
queue: `annC3` was popped and is playing, the pending list is empty. -/
def stC3 : QueueState := add_announcement annC3 emptyState

def annC3w : Announcement := ⟨"weekly report", 480, some RepeatKind.weekly, 0, 2, [], some 20000⟩

def annC4a : Announcement := ⟨"Train {train_no}", 0, none, 0, 0, [], none⟩

def annC4b : Announcement := ⟨"Train {train_no}", 0, none, 0, 0, [("train_no", "12")], none⟩

def dC5a : DummyAnnouncement := ⟨"first", 0, 1⟩

def dC5b : DummyAnnouncement := ⟨"second", 0, 10⟩

def eC5a : Announcement := ⟨"first", 600, none, 0, 1, [], none⟩

def eC5b : Announcement := ⟨"second", 600, none, 0, 10, [], none⟩

def annC6d : Announcement := ⟨"daily", 700, some RepeatKind.daily, 0, 1, [], none⟩

def annC6n : Announcement := ⟨"one shot", 700, none, 0, 1, [], none⟩

def annC7 : Announcement := ⟨"one shot", 300, none, 0, 1, [], none⟩

/-- A reachable state playing `annC7`: `add_announcement annC7` on a fresh
queue pops it immediately. -/
def stC7 : QueueState := add_announcement annC7 emptyState

def annC8a : Announcement := ⟨"first", 0, none, 0, 1, [], none⟩

def annC8b : Announcement := ⟨"second", 0, none, 0, 1, [], none⟩

def annC8c : Announcement := ⟨"third", 0, none, 0, 10, [], none⟩

/-- The state reached by enqueueing `annC8a` then `annC8b` on a fresh
queue: `annC8a` is playing and `annC8b` is pending. -/
def stC8 : QueueState := add_announcement annC8b (add_announcement annC8a emptyState)

/-- `annC8a`'s playback raises in the speech engine, then the playback
thread exits. -/
def postC8err : QueueState :=
  thread_exit (play_announcement (some "device unavailable") annC8a stC8)

/-- The same run with a successful playback. -/
def postC8ok : QueueState := thread_exit (play_announcement none annC8a stC8)

def annC9a : Announcement := ⟨"due first", 50, none, 0, 1, [], none⟩

def annC9b : Announcement := ⟨"due second", 60, none, 0, 1, [], none⟩

def annC10 : Announcement := ⟨"playing", 0, none, 0, 5, [], none⟩

def annC10b : Announcement := ⟨"pending", 0, none, 0, 5, [], none⟩

/-- A reachable state playing `annC10` with `annC10b` pending. -/
def stC10 : QueueState := add_announcement annC10b (add_announcement annC10 emptyState)

/-- C1, counterexample.  The claim says a sequence of `add_announcement`
calls made while the queue is idle plays in `(-priority, play_time)` order.
On a fresh idle queue, however, the first `add_announcement` pops its
announcement synchronously (src/main.py line 85, reached from line 67
because `playing_thread` is not yet alive), so after enqueueing the
priority-1 `annC1A` followed by the priority-5 `annC1B` and `annC1C`, the
announcement being played is `annC1A`, even though the stable sort of all
three enqueued announcements starts with `annC1C` — the claimed play order
`C, B, A` does not occur; the code produces `A, C, B`. -/
theorem C1_counterexample :
    (add_announcement annC1A emptyState).current_announcement = some annC1A ∧
    (sortKey [annC1A, annC1B, annC1C]).head? = some annC1C ∧
    annC1A ≠ annC1C ∧
    (add_announcement annC1C (add_announcement annC1B
      (add_announcement annC1A emptyState))).current_announcement = some annC1A ∧
    (add_announcement annC1C (add_announcement annC1B
      (add_announcement annC1A emptyState))).queue = [annC1C, annC1B] := by
  decide

/-- C1, amended.  For every sequence of `add_announcement` calls made while
a playback is in progress (so that `_try_play_next` defers, src/main.py
line 82), the pending list — which `_try_play_next` then drains by popping
position 0 (line 85), so its order is the play order — is a permutation of
the enqueued announcements, sorted by the composite key
`(-priority, play_time)` ascending, and stable: the announcements of any
fixed composite key appear in exactly their enqueue order. -/
theorem C1_enqueue_order_sorted_stable (c : Announcement) (anns : List Announcement) :
    List.Sorted annLe ((anns.foldl (fun s a => add_announcement a s) (busyState c)).queue) ∧
    List.Perm ((anns.foldl (fun s a => add_announcement a s) (busyState c)).queue) anns ∧
    (∀ k, ((anns.foldl (fun s a => add_announcement a s) (busyState c)).queue).filter (keyIs k) =
      anns.filter (keyIs k)) ∧
    (∀ (x : Announcement) (q' : List Announcement) (c' : Option Announcement)
      (i : Bool) (m : List String),
      (try_play_next ⟨x :: q', c', false, i, m⟩).current_announcement = some x ∧
      (try_play_next ⟨x :: q', c', false, i, m⟩).queue = q') := by
  obtain ⟨hq, -⟩ := fold_add_queue_of_alive anns (busyState c) rfl
  have hbq : (busyState c).queue = [] := rfl
  rw [hq, hbq]
  obtain ⟨hs, hp, hf⟩ := addToQueue_fold_props anns [] []
    (by simp) (List.Perm.refl []) (fun k => rfl)
  refine ⟨hs, by simpa using hp, fun k => by simpa using hf k, ?_⟩
  intro x q' c' i m
  constructor <;> simp [try_play_next]

/-- C2: `interrupt_with_live` inserts its argument at position 0 of the
pending list unconditionally (src/main.py line 76, no priority
comparison), so it plays next: if a playback is in progress the live
announcement heads the pending list (and is the one popped as soon as the
playback thread exits and `_try_play_next` runs); if the queue is idle it
is popped and played at once. -/
theorem C2_interrupt_plays_next (a : Announcement) (st : QueueState) :
    (st.playing_alive = true →
      (interrupt_with_live a st).queue = a :: st.queue ∧
      (interrupt_with_live a st).interrupted = true ∧
      (try_play_next (thread_exit (interrupt_with_live a st))).current_announcement = some a ∧
      (try_play_next (thread_exit (interrupt_with_live a st))).queue = st.queue) ∧
    (st.playing_alive = false →
      (interrupt_with_live a st).current_announcement = some a ∧
      (interrupt_with_live a st).queue = st.queue) := by
  obtain ⟨q, c, pa, i, m⟩ := st
  cases pa with
  | true =>
    refine ⟨fun _ => ?_, fun h => by simp at h⟩
    refine ⟨rfl, rfl, ?_, ?_⟩ <;> simp [interrupt_with_live, try_play_next, thread_exit]
  | false =>
    refine ⟨fun h => by simp at h, fun _ => ?_⟩
    constructor <;> simp [interrupt_with_live, try_play_next]

/-- C2, witness: the theorem applied to a busy queue playing `annC2cur`
and to the idle initial queue. -/
theorem C2_interrupt_plays_next_witness :
    ((interrupt_with_live annC2 (busyState annC2cur)).queue =
        annC2 :: (busyState annC2cur).queue ∧
      (interrupt_with_live annC2 (busyState annC2cur)).interrupted = true ∧
      (try_play_next (thread_exit (interrupt_with_live annC2
        (busyState annC2cur)))).current_announcement = some annC2 ∧
      (try_play_next (thread_exit (interrupt_with_live annC2
        (busyState annC2cur)))).queue = (busyState annC2cur).queue) ∧
    ((interrupt_with_live annC2idle emptyState).current_announcement = some annC2idle ∧
      (interrupt_with_live annC2idle emptyState).queue = emptyState.queue) :=
  ⟨(C2_interrupt_plays_next annC2 (busyState annC2cur)).1 rfl,
    (C2_interrupt_plays_next annC2idle emptyState).2 rfl⟩

/-- C3, counterexample.  The claim says a recurring announcement is
re-enqueued if and only if the advanced play time does not exceed
`repeat_end`.  The engine never consults `repeat_end` (the `Announcement`
class, src/main.py lines 16-31, does not even store the value the edit
dialog collects), so the daily `annC3` with `play_time = 100` and
`repeat_end = some 100` is re-enqueued after completing playback even
though its advanced play time `1540` exceeds the bound. -/
theorem C3_counterexample :
    annC3.repeat_end = some 100 ∧
    (reschedule annC3).play_time = 1540 ∧
    100 < (reschedule annC3).play_time ∧
    reschedule annC3 ∈ (play_announcement none annC3 stC3).queue := by
  decide

/-- C3, amended: after completing playback (normally or with an error), a
recurring announcement is always re-enqueued with its advanced play time —
the pending list becomes the stable sort of the old pending list plus the
rescheduled announcement (src/main.py lines 104-106) — regardless of
`repeat_end`, which the completion handler never reads (the statement
quantifies over every `repeat_end` value, including bounds the advanced
play time exceeds). -/
theorem C3_recurring_always_reenqueued (o : Option String) (a : Announcement)
    (st : QueueState) (hrep : a.«repeat».isSome = true)
    (halive : st.playing_alive = true) :
    (play_announcement o a st).queue = sortKey (st.queue ++ [reschedule a]) ∧
    reschedule a ∈ (play_announcement o a st).queue := by
  obtain ⟨q, c, pa, i, m⟩ := st
  cases pa with
  | false => simp at halive
  | true =>
    have hq : (play_announcement o a ⟨q, c, true, i, m⟩).queue =
        sortKey (q ++ [reschedule a]) := by
      simp [play_announcement, add_announcement, try_play_next, hrep]
    refine ⟨hq, ?_⟩
    rw [hq]
    exact (sortKey_perm (q ++ [reschedule a])).mem_iff.mpr (by simp)

/-- C3, witness: the amended theorem applied to the weekly `annC3w`
completing while it is the current playback. -/
theorem C3_recurring_always_reenqueued_witness :
    (play_announcement none annC3w (busyState annC3w)).queue =
      sortKey ((busyState annC3w).queue ++ [reschedule annC3w]) ∧
    reschedule annC3w ∈ (play_announcement none annC3w (busyState annC3w)).queue :=
  C3_recurring_always_reenqueued none annC3w (busyState annC3w) rfl rfl

/-- C4: rendering is total and never raises: whenever the modelled
`str.format` call fails (missing key or malformed placeholder,
`strFormat = none`), `get_text` returns the template unmodified; whenever
it succeeds, `get_text` returns the substituted string; in particular the
template `Train {train_no}` renders to itself under no variables and to
`Train 12` when `train_no` is `12`. -/
theorem C4_render_total (a : Announcement) :
    (strFormat a.text_template a.«variables» = none → get_text a = a.text_template) ∧
    (∀ s, strFormat a.text_template a.«variables» = some s → get_text a = s) ∧
    get_text annC4a = "Train {train_no}" ∧
    get_text annC4b = "Train 12" := by
  refine ⟨fun h => ?_, fun s h => ?_, by decide, by decide⟩
  · simp [get_text, h]
  · simp [get_text, h]

/-- C4, witness: the theorem applied to the two example announcements,
with the substitution failure and success discharged by evaluation. -/
theorem C4_render_total_witness :
    get_text annC4a = annC4a.text_template ∧ get_text annC4b = "Train 12" :=
  ⟨(C4_render_total annC4a).1 (by decide),
    (C4_render_total annC4b).2.1 "Train 12" (by decide)⟩

/-- C5: the module-level `Announcement`/`AnnouncementQueue` pair that is
in scope when `VoiceAnnouncementApp` runs (src/main.py lines 567-589) is
not equivalent to the engine pair (lines 16-109): its
`interrupt_with_live` never touches the pending list (and stops nothing —
`DummyQueue` has no playback state at all), its `add_announcement` is a
plain append that starts no playback, and enqueueing a priority-1 then a
priority-10 announcement leaves the dummy queue in insertion order
`[1, 10]` while the engine's pending-list discipline produces the sorted
`[10, 1]`. -/
theorem C5_shadowing_queue_not_equivalent :
    (∀ (a : DummyAnnouncement) (st : DummyQueue),
      (dummy_interrupt_with_live a st).queue = st.queue) ∧
    (∀ (a : DummyAnnouncement) (st : DummyQueue),
      (dummy_add_announcement a st).queue = st.queue ++ [a]) ∧
    (dummy_add_announcement dC5b (dummy_add_announcement dC5a ⟨[], []⟩)).queue.map
      DummyAnnouncement.priority = [1, 10] ∧
    (addToQueue (addToQueue [] eC5a) eC5b).map Announcement.priority = [10, 1] ∧
    (dummy_add_announcement dC5b (dummy_add_announcement dC5a ⟨[], []⟩)).queue.map
      DummyAnnouncement.priority ≠
      (addToQueue (addToQueue [] eC5a) eC5b).map Announcement.priority := by
  exact ⟨fun a st => rfl, fun a st => rfl, by decide, by decide, by decide⟩

/-- C6: `reschedule` advances the play time by exactly one interval per
call — 1440 minutes for daily, 10080 for weekly — leaves it unchanged for
one-shot announcements, and never moves it backward. -/
theorem C6_reschedule_advances_one_interval (a : Announcement) :
    (a.«repeat» = some RepeatKind.daily →
      (reschedule a).play_time = a.play_time + 1440) ∧
    (a.«repeat» = some RepeatKind.weekly →
      (reschedule a).play_time = a.play_time + 10080) ∧
    (a.«repeat» = none → reschedule a = a) ∧
    a.play_time ≤ (reschedule a).play_time := by
  rcases ha : a.«repeat» with - | r
  · simp [reschedule, ha]
  · cases r <;> simp [reschedule, ha]

/-- C6, witness: the theorem applied to a daily and to a one-shot
announcement. -/
theorem C6_reschedule_advances_one_interval_witness :
    (reschedule annC6d).play_time = annC6d.play_time + 1440 ∧
    reschedule annC6n = annC6n :=
  ⟨(C6_reschedule_advances_one_interval annC6d).1 rfl,
    (C6_reschedule_advances_one_interval annC6n).2.2.1 rfl⟩

/-- C7: when a one-shot announcement finishes playback — normally or with
a speech-engine error — the completion handler (src/main.py lines 102-109)
leaves the pending list exactly as it was (no re-enqueue) and clears the
current announcement. -/
theorem C7_one_shot_never_reenqueued (o : Option String) (a : Announcement)
    (st : QueueState) (hrep : a.«repeat» = none)
    (halive : st.playing_alive = true) :
    (play_announcement o a st).queue = st.queue ∧
    (play_announcement o a st).current_announcement = none := by
  obtain ⟨q, c, pa, i, m⟩ := st
  cases pa with
  | false => simp at halive
  | true => constructor <;> simp [play_announcement, add_announcement, try_play_next, hrep]

/-- C7, witness: the theorem applied to the one-shot `annC7` finishing
with a speech-engine error while it is the current playback. -/
theorem C7_one_shot_never_reenqueued_witness :
    (play_announcement (some "boom") annC7 stC7).queue = stC7.queue ∧
    (play_announcement (some "boom") annC7 stC7).current_announcement = none :=
  C7_one_shot_never_reenqueued (some "boom") annC7 stC7 rfl rfl

/-- C8: evaluation of the code at the failing input.  With `annC8a`
playing and `annC8b` pending, a speech-engine error is reported via a
status message, is not retried, and is treated exactly as completion (the
error run and the successful run end in the same pending list and current
announcement); the completion handling runs (current cleared) and a later
`add_announcement` makes the queue play again.  But the next pending item
is NOT started by the completion handler: after the playback thread exits,
`annC8b` is still pending with nothing playing, because the
`_try_play_next` call in the `finally` block (src/main.py line 109)
returns at line 82 — `playing_thread.is_alive()` is true on the very
thread that is executing the `finally` block — contradicting the claim
(and the source's own comment `# Play next announcement`, line 107). -/
theorem C8_error_treated_as_completion_but_next_not_started :
    stC8.current_announcement = some annC8a ∧
    stC8.queue = [annC8b] ∧
    "Error playing announcement: device unavailable" ∈
      (play_announcement (some "device unavailable") annC8a stC8).messages ∧
    postC8err.queue = postC8ok.queue ∧
    postC8err.current_announcement = postC8ok.current_announcement ∧
    postC8err.current_announcement = none ∧
    postC8err.playing_alive = false ∧
    postC8err.queue = [annC8b] ∧
    (add_announcement annC8c postC8err).current_announcement = some annC8c ∧
    (add_announcement annC8c postC8err).playing_alive = true := by
  decide

/-- C9: evaluation of the code at the failing input.  Both watch-list
announcements `annC9a` and `annC9b` are due one-shots at tick time 100,
yet `check_schedules` enqueues only `annC9a` and leaves `annC9b` in the
watch list: removing `annC9a` from the list being iterated shifts
`annC9b` into the slot the iterator has already passed (src/main.py lines
1005-1009), so a due one-shot announcement is skipped without being
enqueued — contradicting the claim that every due announcement is
enqueued and every due one-shot is removed. -/
theorem C9_due_checker_skips_after_removal :
    is_due annC9a 100 = true ∧
    is_due annC9b 100 = true ∧
    annC9a.«repeat» = none ∧
    annC9b.«repeat» = none ∧
    check_schedules 100 [annC9a, annC9b] = ([annC9b], [annC9a]) := by
  decide

/-- C10, counterexample.  The claim says all reads and writes of the
pending list, the current-announcement reference and the interrupted flag
are serialized under the queue's lock, and that the interrupted flag
prevents the completion handler from double-advancing.  Neither holds:
`_try_play_next` pops the pending list and writes the current
announcement and the flag with no lock held (the transcription
`try_play_next_accesses` of src/main.py lines 83-87 contains unlocked
accesses — in particular the pop of the pending list), and the completion
handler's result on the reachable state `stC10` (playing `annC10` with
`annC10b` pending) is identical whether the interrupted flag is set or
not, so the flag — written but never read — prevents nothing. -/
theorem C10_counterexample :
    engine_accesses.all (fun acc => acc.underLock) = false ∧
    MemAccess.mk SharedVar.queue true false ∈ try_play_next_accesses ∧
    (play_announcement none annC10 { stC10 with interrupted := true }).queue =
      (play_announcement none annC10 { stC10 with interrupted := false }).queue ∧
    (play_announcement none annC10 { stC10 with interrupted := true }).current_announcement =
      (play_announcement none annC10 { stC10 with interrupted := false }).current_announcement := by
  decide

/-- C10, amended: only `add_announcement` and `interrupt_with_live`
perform their shared-state mutations inside `with self.lock`;
`_try_play_next` and the completion handler access the pending list, the
current-announcement reference and the interrupted flag with no lock held;
and the interrupted flag is never read, so the completion handler's
pending list and current announcement are independent of it (the guard
against double-advancing is the `playing_thread.is_alive()` check, not
the flag). -/
theorem C10_lock_scope_and_unused_flag :
    (add_announcement_accesses ++ interrupt_with_live_accesses).all
      (fun acc => acc.underLock) = true ∧
    (try_play_next_accesses ++ play_announcement_accesses).all
      (fun acc => !acc.underLock) = true ∧
    (∀ (o : Option String) (a : Announcement) (q : List Announcement)
      (c : Option Announcement) (pa i i' : Bool) (m : List String),
      (play_announcement o a ⟨q, c, pa, i, m⟩).queue =
        (play_announcement o a ⟨q, c, pa, i', m⟩).queue ∧
      (play_announcement o a ⟨q, c, pa, i, m⟩).current_announcement =
        (play_announcement o a ⟨q, c, pa, i', m⟩).current_announcement) :=
  ⟨by decide, by decide, fun o a q c pa i i' m =>
    play_ignores_interrupted o a q c pa i i' m⟩

end VoiceAnnouncement
